import Mathlib

/-!
Verification of the PyRS HB2B reduction core against its specification.

The development shallowly embeds the Python sources:
* `pyrs/core/reduce_hb2b_pyrs.py` — instrument geometry, angle conversion and
  the 2theta histogram reducer;
* `pyrs/core/workspaces.py` — the per-session result store
  (`HidraWorkspace.set_reduced_diffraction_data`);
* `pyrs/core/reduction_manager.py` — the per-sub-run reduction orchestrator
  (`HB2BReductionManager.reduce_sub_run_diffraction`).

Modelling conventions:
* numpy float arrays of pixel coordinates are embedded as total functions
  `ℕ → ℕ → Fin 3 → ℝ` (row index, column index, channel); the array shape
  `(rows, columns, 3)` is carried by the in-range indexing convention
  `row < detector_rows`, `column < detector_columns`.
* The purely arithmetic histogram stage is embedded over `ℚ` (exact
  arithmetic standing for float arithmetic) so that it is executable.
* Python exceptions are embedded as `Except PyError`; a numpy NaN produced
  by 0/0 is embedded as `Option.none` (a not-a-number value, not an
  exception).
-/

/-- Python exception outcomes raised by the embedded code. -/
inductive PyError where
  | attributeError
  | typeError
  | runtimeError
  | keyError
  | valueError
  deriving DecidableEq, Repr

/-- Record `InstrumentSetup` (calibration_file_io): the immutable record of panel
dimensions read by `ResidualStressInstrument`.  The class itself lives in
`pyrs/utilities/calibration_file_io.py` (not under `src/`); its fields are
exactly the attributes `reduce_hb2b_pyrs.py` reads:
`detector_rows`, `detector_columns`, `pixel_size_x`, `pixel_size_y`,
`arm_length`. -/
structure InstrumentSetup where
  detector_rows : ℕ
  detector_columns : ℕ
  pixel_size_x : ℝ
  pixel_size_y : ℝ
  arm_length : ℝ

/-- Record `ResidualStressInstrumentCalibration` (calibration_file_io): the
calibration parameters read by `build_instrument`: center shifts along
X/Y/Z and rotations about X/Y/Z in degrees. -/
structure ResidualStressInstrumentCalibration where
  center_shift_x : ℝ
  center_shift_y : ℝ
  center_shift_z : ℝ
  rotation_x : ℝ
  rotation_y : ℝ
  rotation_z : ℝ

noncomputable section

/-- Embedding of `ResidualStressInstrument._cal_rotation_matrix_x` (reduce_hb2b_pyrs.py
lines 168-180): rotation matrix about the X axis,
`[[1,0,0],[0,cos,-sin],[0,sin,cos]]`. -/
def cal_rotation_matrix_x (angle_rad : ℝ) : Matrix (Fin 3) (Fin 3) ℝ :=
  !![1, 0, 0;
     0, Real.cos angle_rad, -Real.sin angle_rad;
     0, Real.sin angle_rad, Real.cos angle_rad]

/-- Embedding of `ResidualStressInstrument._cal_rotation_matrix_y` (reduce_hb2b_pyrs.py
lines 182-194): rotation matrix about the Y axis,
`[[cos,0,sin],[0,1,0],[-sin,0,cos]]`. -/
def cal_rotation_matrix_y (angle_rad : ℝ) : Matrix (Fin 3) (Fin 3) ℝ :=
  !![Real.cos angle_rad, 0, Real.sin angle_rad;
     0, 1, 0;
     -Real.sin angle_rad, 0, Real.cos angle_rad]

/-- Embedding of `ResidualStressInstrument._cal_rotation_matrix_z` (reduce_hb2b_pyrs.py
lines 196-208): rotation matrix about the Z axis,
`[[cos,-sin,0],[sin,cos,0],[0,0,1]]`. -/
def cal_rotation_matrix_z (angle_rad : ℝ) : Matrix (Fin 3) (Fin 3) ℝ :=
  !![Real.cos angle_rad, -Real.sin angle_rad, 0;
     Real.sin angle_rad, Real.cos angle_rad, 0;
     0, 0, 1]

/-- Embedding of `ResidualStressInstrument.generate_rotation_matrix` (reduce_hb2b_pyrs.py
lines 146-166): `rot_x_matrix * rot_y_matrix * rot_z_matrix` on
`numpy.matrix` values, i.e. the matrix product Rx·Ry·Rz in that order. -/
def generate_rotation_matrix (rot_x_rad rot_y_rad rot_z_rad : ℝ) :
    Matrix (Fin 3) (Fin 3) ℝ :=
  cal_rotation_matrix_x rot_x_rad * cal_rotation_matrix_y rot_y_rad *
    cal_rotation_matrix_z rot_z_rad

/-- Embedding of `ResidualStressInstrument._rotate_detector` (reduce_hb2b_pyrs.py lines
28-43): `rotate_det[:, :, i] = sum over j of rotation_matrix[i, j] *
detector_matrix[:, :, j]`, i.e. every pixel vector is multiplied by the
rotation matrix. -/
def rotate_detector (detector_matrix : ℕ → ℕ → Fin 3 → ℝ)
    (rotation_matrix : Matrix (Fin 3) (Fin 3) ℝ) : ℕ → ℕ → Fin 3 → ℝ :=
  fun r c => rotation_matrix.mulVec (detector_matrix r c)

/-- Embedding of `ResidualStressInstrument._set_uncalibrated_pixels` (reduce_hb2b_pyrs.py
lines 45-75): the raw pixel grid.  Row `r` sets channel 1 (Y) to
`-(num_rows*0.5-0.5)*pixel_size_y + r*pixel_size_y`, column `c` sets
channel 0 (X) to `(num_columns*0.5-0.5)*pixel_size_x - c*pixel_size_x`,
and channel 2 (Z) is 0 everywhere.  The numpy array of shape
`(num_rows, num_columns, 3)` is embedded as a function of the row and
column indices. -/
def set_uncalibrated_pixels (setup : InstrumentSetup) : ℕ → ℕ → Fin 3 → ℝ :=
  fun r c =>
    ![((setup.detector_columns : ℝ) * 0.5 - 0.5) * setup.pixel_size_x -
        (c : ℝ) * setup.pixel_size_x,
      -((setup.detector_rows : ℝ) * 0.5 - 0.5) * setup.pixel_size_y +
        (r : ℝ) * setup.pixel_size_y,
      0]

/-- State of `ResidualStressInstrument` (reduce_hb2b_pyrs.py lines 9-26): the
instance state: the initial setup, the raw pixel matrix built at
construction and the pixel matrix produced by `build_instrument`
(`None` until the instrument has been built). -/
structure ResidualStressInstrument where
  init_setup : InstrumentSetup
  raw_pixel_matrix : ℕ → ℕ → Fin 3 → ℝ
  pixel_matrix : Option (ℕ → ℕ → Fin 3 → ℝ)

/-- Embedding of `ResidualStressInstrument.__init__` (reduce_hb2b_pyrs.py lines 13-26):
stores the setup, builds the raw pixel matrix once, and leaves the
calibrated pixel matrix unset. -/
def ResidualStressInstrument.init (setup : InstrumentSetup) :
    ResidualStressInstrument :=
  { init_setup := setup
    raw_pixel_matrix := set_uncalibrated_pixels setup
    pixel_matrix := none }

/-- Embedding of `ResidualStressInstrument.build_instrument`
(reduce_hb2b_pyrs.py lines 77-144).  Steps, in source order: copy the raw pixel matrix; add
`center_shift_x` to channel 0 and `center_shift_y` to channel 1; rotate by
`generate_rotation_matrix` of the three calibration angles converted to
radians; add `arm_length + center_shift_z` to channel 2; rotate by the
Y-rotation matrix of `two_theta` converted to radians.  The result is
stored in `pixel_matrix` (the Python method also returns it). -/
def ResidualStressInstrument.build_instrument
    (inst : ResidualStressInstrument) (two_theta : ℝ)
    (instrument_calibration : ResidualStressInstrumentCalibration) :
    ResidualStressInstrument :=
  let m0 := inst.raw_pixel_matrix
  let m1 := fun r c => m0 r c +
    ![instrument_calibration.center_shift_x,
      instrument_calibration.center_shift_y, 0]
  let rot_x_flip := instrument_calibration.rotation_x * Real.pi / 180
  let rot_y_flip := instrument_calibration.rotation_y * Real.pi / 180
  let rot_z_spin := instrument_calibration.rotation_z * Real.pi / 180
  let calib_matrix := generate_rotation_matrix rot_x_flip rot_y_flip rot_z_spin
  let m2 := rotate_detector m1 calib_matrix
  let m3 := fun r c => m2 r c +
    ![0, 0, inst.init_setup.arm_length + instrument_calibration.center_shift_z]
  let two_theta_rad := two_theta * Real.pi / 180
  let two_theta_matrix := cal_rotation_matrix_y two_theta_rad
  let m4 := rotate_detector m3 two_theta_matrix
  { inst with pixel_matrix := some m4 }

/-- Embedding of `ResidualStressInstrument.get_pixel_matrix` (reduce_hb2b_pyrs.py lines
210-218): returns the 2-D matrix of pixel coordinates; raises
RuntimeError when the instrument has not been built. -/
def ResidualStressInstrument.get_pixel_matrix
    (inst : ResidualStressInstrument) : Except PyError (ℕ → ℕ → Fin 3 → ℝ) :=
  match inst.pixel_matrix with
  | none => .error .runtimeError
  | some m => .ok m

/-- Embedding of `ResidualStressInstrument.get_pixel_array` (reduce_hb2b_pyrs.py lines
220-241): raises RuntimeError when the instrument has not been built;
otherwise transposes the pixel matrix with axis order `(1, 0, 2)` (the
`if True` branch in the source) and reshapes it to `(num_x*num_y, 3)` in
C order.  With `num_x = detector_rows` and `num_y = detector_columns`
(the shape of the stored matrix), the transposed array has shape
`(num_y, num_x, 3)`, so the C-order linear index `k` addresses transposed
entry `(k / num_x, k % num_x)`, i.e. original entry
`(k % num_x, k / num_x)`.  The check `num_z != 3` of the source holds by
the type of the embedding. -/
def ResidualStressInstrument.get_pixel_array
    (inst : ResidualStressInstrument) : Except PyError (ℕ → Fin 3 → ℝ) :=
  match inst.pixel_matrix with
  | none => .error .runtimeError
  | some m =>
    let num_x := inst.init_setup.detector_rows
    let pixel_pos_matrix := fun c r => m r c
    .ok (fun k => pixel_pos_matrix (k / num_x) (k % num_x))

/-- Norm of one pixel position vector as computed in
`PyHB2BReduction.convert_to_2theta` (reduce_hb2b_pyrs.py lines 308, 323):
`sqrt(v0**2 + v1**2 + v2**2)`. -/
def det_pos_norm (v : Fin 3 → ℝ) : ℝ :=
  Real.sqrt (v 0 ^ 2 + v 1 ^ 2 + v 2 ^ 2)

open Classical in
/-- Per-entry computation of `PyHB2BReduction.convert_to_2theta`
(reduce_hb2b_pyrs.py lines 295-336): each position vector is divided by
its norm, dotted with the incident-beam direction `k_in_vec = [0, 0, 1]`
(which picks out channel 2), and the arccos of the result is converted to
degrees.  When the norm is zero, numpy's `0.0/0.0` produces NaN and
`arccos` propagates it; the NaN outcome is embedded as `none` (a
not-a-number value, not a raised exception). -/
def convert_to_2theta (v : Fin 3 → ℝ) : Option ℝ :=
  if det_pos_norm v = 0 then none
  else some (Real.arccos (v 2 / det_pos_norm v) * 180 / Real.pi)

/-- The `len(des_pos_array.shape) == 3` branch of
`PyHB2BReduction.convert_to_2theta` (reduce_hb2b_pyrs.py lines 304-318):
an `N x M x 3` position matrix is converted entrywise, yielding an
`N x M` matrix of angles. -/
def convert_to_2theta_matrix (des_pos_array : ℕ → ℕ → Fin 3 → ℝ) :
    ℕ → ℕ → Option ℝ :=
  fun r c => convert_to_2theta (des_pos_array r c)

/-- The flattened-array branch of `PyHB2BReduction.convert_to_2theta`
(reduce_hb2b_pyrs.py lines 319-334): an `(N*M) x 3` position array is
converted entrywise, yielding a length-`N*M` vector of angles. -/
def convert_to_2theta_flat (des_pos_array : ℕ → Fin 3 → ℝ) :
    ℕ → Option ℝ :=
  fun k => convert_to_2theta (des_pos_array k)

end

/-- Error outcomes of the embedded
`PyHB2BReduction.reduce_to_2theta_histogram`. -/
inductive ReduceError where
  /-- RuntimeError of reduce_hb2b_pyrs.py line 354: the 2theta array and
  the counts array have different shapes. -/
  | shapeMismatch
  /-- RuntimeError of reduce_hb2b_pyrs.py line 363: an explicit `x_range`
  `(lo, hi)` with `lo >= hi` was supplied. -/
  | rangeError
  /-- Error raised by `checkdatatypes.check_numpy_arrays` at
  reduce_hb2b_pyrs.py line 374 when the mask vector does not match the
  counts vector. -/
  | maskShapeMismatch
  /-- ValueError raised inside `numpy.histogram` when `bins` is not a
  positive integer. -/
  | binsError
  deriving DecidableEq, Repr

/-- Minimum of a list, as computed by `numpy.ndarray.min` on a nonempty
array (0 is a junk value for the empty list, which numpy rejects). -/
def list_min (l : List ℚ) : ℚ :=
  match l with
  | [] => 0
  | x :: xs => xs.foldl min x

/-- Maximum of a list, as computed by `numpy.ndarray.max` on a nonempty
array (0 is a junk value for the empty list, which numpy rejects). -/
def list_max (l : List ℚ) : ℚ :=
  match l with
  | [] => 0
  | x :: xs => xs.foldl max x

/-- Resolution of the histogram range by `numpy.histogram` at
reduce_hb2b_pyrs.py line 378: an explicit `range=(lo, hi)` is used as is;
with `range=None` the documented default is `(a.min(), a.max())` over the
sample array (for an empty sample numpy falls back to `(0, 1)`). -/
def resolve_range (x_range : Option (ℚ × ℚ)) (a : List ℚ) : ℚ × ℚ :=
  match x_range with
  | some p => p
  | none => if a = [] then (0, 1) else (list_min a, list_max a)

/-- Bin edges produced by `numpy.histogram` with `bins = n` over
`[lo, hi]`: `n + 1` equally spaced values from `lo` to `hi`. -/
def bin_edges (lo hi : ℚ) (n : ℕ) : List ℚ :=
  (List.range (n + 1)).map (fun i : ℕ => lo + (hi - lo) * (i : ℚ) / (n : ℚ))

/-- Bin membership of one sample for `numpy.histogram` with `bins = n`
uniform bins over `[lo, hi]`: samples outside `[lo, hi]` are dropped
(`none`); a sample inside falls in bin `floor((x-lo)/(hi-lo)*n)`, except
that the rightmost bin is closed, so the index is capped at `n - 1`. -/
def numpy_bin_index (lo hi : ℚ) (n : ℕ) (x : ℚ) : Option ℕ :=
  if lo ≤ x ∧ x ≤ hi then
    some (min (Int.toNat ⌊(x - lo) / (hi - lo) * n⌋) (n - 1))
  else none

/-- Weight collected by bin `b` from the (sample, weight) pairs `pw`. -/
def hist_count (lo hi : ℚ) (n : ℕ) (pw : List (ℚ × ℚ)) (b : ℕ) : ℚ :=
  (pw.map (fun p => if numpy_bin_index lo hi n p.1 = some b then p.2 else 0)).sum

/-- Embedding of `numpy.histogram(a, bins=n, range=(lo, hi), weights=w)` for a positive
integer `n`: each in-range sample adds its weight to the bin that owns it;
out-of-range samples are dropped. -/
def numpy_histogram (a w : List ℚ) (n : ℕ) (lo hi : ℚ) : List ℚ :=
  (List.range n).map (hist_count lo hi n (a.zip w))

/-- Point-data conversion of `PyHB2BReduction.reduce_to_2theta_histogram`
(reduce_hb2b_pyrs.py lines 385-388): `delta_bin = bin_edges[1] -
bin_edges[0]`; `bin_edges += delta_bin * 0.5`; drop the last edge. -/
def point_data_convert (edges : List ℚ) : List ℚ :=
  (edges.map (fun e => e + (edges.getD 1 0 - edges.getD 0 0) * (0.5 : ℚ))).dropLast

/-- Mask application of `PyHB2BReduction.reduce_to_2theta_histogram`
(reduce_hb2b_pyrs.py lines 372-375): when a mask is given,
`checkdatatypes.check_numpy_arrays` requires it to match the counts
vector, then the counts are multiplied elementwise by the mask
(`vec_counts *= mask`). -/
def apply_mask (counts : List ℚ) (mask : Option (List ℚ)) :
    Except ReduceError (List ℚ) :=
  match mask with
  | none => .ok counts
  | some mask_vec =>
    if mask_vec.length ≠ counts.length then .error .maskShapeMismatch
    else .ok (List.zipWith (fun x y => x * y) counts mask_vec)

/-- Embedding of `PyHB2BReduction.reduce_to_2theta_histogram`
(reduce_hb2b_pyrs.py lines 338-390), from the point where the per-pixel 2theta array exists.
In the source the 2theta array is computed from the built instrument
(`get_pixel_array` followed by `convert_to_2theta`, embedded above over
`ℝ`); the remainder of the method is pure array arithmetic and is
embedded here over exact rationals.  Source order: shape check of the
2theta and counts arrays (line 353); `x_range` validation (lines
360-363); mask check and multiplication (lines 372-375);
`numpy.histogram` (line 378); optional point-data conversion (lines
385-388). -/
def reduce_to_2theta_histogram (two_theta_array counts_array : List ℚ)
    (mask : Option (List ℚ)) (num_bins : ℕ) (x_range : Option (ℚ × ℚ))
    (is_point_data : Bool) : Except ReduceError (List ℚ × List ℚ) :=
  if two_theta_array.length ≠ counts_array.length then .error .shapeMismatch
  else if x_range.elim false (fun p => decide (p.1 ≥ p.2)) = true then .error .rangeError
  else
    match apply_mask counts_array mask with
    | .error e => .error e
    | .ok vec_counts =>
      if num_bins = 0 then .error .binsError
      else if is_point_data then
        .ok (point_data_convert (bin_edges (resolve_range x_range two_theta_array).1
              (resolve_range x_range two_theta_array).2 num_bins),
             numpy_histogram two_theta_array vec_counts num_bins
              (resolve_range x_range two_theta_array).1
              (resolve_range x_range two_theta_array).2)
      else
        .ok (bin_edges (resolve_range x_range two_theta_array).1
              (resolve_range x_range two_theta_array).2 num_bins,
             numpy_histogram two_theta_array vec_counts num_bins
              (resolve_range x_range two_theta_array).1
              (resolve_range x_range two_theta_array).2)

/-- Lookup in an association list, modelling a Python `dict` access. -/
def assoc_find {α β : Type} [DecidableEq α] (k : α) :
    List (α × β) → Option β
  | [] => none
  | p :: ps => if p.1 = k then some p.2 else assoc_find k ps

/-- State of `HidraWorkspace` (workspaces.py lines 7-50), restricted to the fields
the verified operations touch: the sub-run-to-spectrum map
(`None` until set up), the raw counts per sub-run, the 2theta sample log,
the per-spectrum 2theta matrix and the per-mask-id intensity matrices.
Python dicts are modelled as association lists; data vectors are modelled
over exact rationals. -/
structure HidraWorkspace where
  sub_run_to_spectrum : Option (List (ℕ × ℕ))
  raw_counts : List (ℕ × List ℚ)
  sample_log_2theta : List (ℕ × ℚ)
  two_theta_matrix : Option (List (List ℚ))
  diff_data_set : List (Option String × List (List ℚ))

/-- Row update of one intensity matrix inside `_diff_data_set`, used by
`set_reduced_diffraction_data` (workspaces.py line 570). -/
def set_diff_row (dds : List (Option String × List (List ℚ)))
    (mask_id : Option String) (spec_id : ℕ) (row : List ℚ) :
    List (Option String × List (List ℚ)) :=
  dds.map (fun p => if p.1 = mask_id then (p.1, p.2.set spec_id row) else p)

/-- Embedding of `HidraWorkspace.set_reduced_diffraction_data`
(workspaces.py lines 515-572).  Source order: raise if the sub-run-to-spectrum map is not set
up (line 525); `check_int_variable` requires `sub_run >= 1` (line 529);
raise if the 2theta array and the intensity array differ in shape (lines
533-535); create the 2theta matrix with one row per sub-run if absent
(lines 538-543); create the intensity matrix for the mask id if absent
(lines 546-550); look up the spectrum index of the sub-run (line 553, a
KeyError for an unknown sub-run); a second sanity check that both
matrices have the incoming arrays' width (lines 556-565); finally write
both rows (lines 568-570).  Freshly allocated numpy matrices are modelled
as zero-filled. -/
def HidraWorkspace.set_reduced_diffraction_data (w : HidraWorkspace)
    (sub_run : ℕ) (mask_id : Option String)
    (two_theta_array intensity_array : List ℚ) :
    Except PyError HidraWorkspace :=
  match w.sub_run_to_spectrum with
  | none => .error .runtimeError
  | some s2s =>
    if sub_run < 1 then .error .valueError
    else if two_theta_array.length ≠ intensity_array.length then
      .error .runtimeError
    else
      let m2t := match w.two_theta_matrix with
        | none => List.replicate s2s.length
            (List.replicate two_theta_array.length 0)
        | some m => m
      let dds := match assoc_find mask_id w.diff_data_set with
        | none => (mask_id, List.replicate s2s.length
            (List.replicate intensity_array.length 0)) :: w.diff_data_set
        | some _ => w.diff_data_set
      match assoc_find sub_run s2s with
      | none => .error .keyError
      | some spec_id =>
        if (m2t.headD []).length ≠ two_theta_array.length ∨
            (((assoc_find mask_id dds).getD []).headD []).length ≠
              intensity_array.length then
          .error .runtimeError
        else
          .ok { w with
                two_theta_matrix := some (m2t.set spec_id two_theta_array)
                diff_data_set := set_diff_row dds mask_id spec_id
                  intensity_array }

/-- Embedding of `HidraWorkspace.get_2theta` (workspaces.py lines 200-215): reads the
per-sub-run 2theta value from the sample log dictionary, raising
RuntimeError when the entry is missing. -/
def HidraWorkspace.get_2theta (w : HidraWorkspace) (sub_run : ℕ) :
    Except PyError ℚ :=
  match assoc_find sub_run w.sample_log_2theta with
  | none => .error .runtimeError
  | some two_theta => .ok two_theta

/-- The call `workspace.get_raw_data(sub_run)` at reduction_manager.py
line 277.  `HidraWorkspace` (workspaces.py) defines no method named
`get_raw_data` (its raw-counts accessor is `get_detector_counts`, lines
243-254), so Python attribute lookup raises AttributeError. -/
def HidraWorkspace.get_raw_data (_w : HidraWorkspace) (_sub_run : ℕ) :
    Except PyError (List ℚ) :=
  .error .attributeError

/-- The call `reduction_engine.set_experimental_data(two_theta,
raw_count_vec)` at reduction_manager.py line 294.  `PyHB2BReduction`
(reduce_hb2b_pyrs.py) defines no method named `set_experimental_data`, so
Python attribute lookup raises AttributeError. -/
def engine_set_experimental_data (_two_theta : ℚ)
    (_raw_count_vec : List ℚ) : Except PyError Unit :=
  .error .attributeError

/-- The call `reduction_engine.build_instrument(geometry_calibration)` at
reduction_manager.py line 295.  `PyHB2BReduction.build_instrument`
(reduce_hb2b_pyrs.py lines 256-279) takes seven positional arguments
(`two_theta`, `arm_length_shift`, `center_shift_x`, `center_shift_y`,
`rot_x_flip`, `rot_y_flip`, `rot_z_spin`); a call with a single argument
raises TypeError. -/
def engine_build_instrument_one_arg : Except PyError Unit :=
  .error .typeError

/-- The call `reduction_engine.set_mask(mask_vec)` at
reduction_manager.py line 323.  `PyHB2BReduction` defines no method named
`set_mask`, so Python attribute lookup raises AttributeError. -/
def engine_set_mask (_mask_vec : List ℚ) : Except PyError Unit :=
  .error .attributeError

/-- The call `reduction_engine.reduce_to_2theta_histogram(two_theta_range,
two_theta_step, apply_mask=True, is_point_data=True,
normalize_pixel_bin=True, use_mantid_histogram=False)` at
reduction_manager.py lines 330-334.
`PyHB2BReduction.reduce_to_2theta_histogram` (reduce_hb2b_pyrs.py lines
338-339) has the signature `(counts_array, mask, num_bins, x_range=None,
is_point_data=True)`; the keyword arguments `apply_mask`,
`normalize_pixel_bin` and `use_mantid_histogram` do not exist, so the
call raises TypeError. -/
def engine_reduce_histogram_call : Except PyError (List ℚ × List ℚ) :=
  .error .typeError

/-- Embedding of `HB2BReductionManager.reduce_sub_run_diffraction`
(reduction_manager.py lines 260-345) along the PyRS-engine path
(`use_mantid_engine = False`).  Source order: fetch the raw counts via
`workspace.get_raw_data` (line 277); fetch the sub-run 2theta (line 280)
and negate it (line 283); construct the PyRS engine and call
`set_experimental_data` and `build_instrument` (lines 293-295); apply the
mask via `set_mask` when a mask vector is given (lines 321-323); call
`reduce_to_2theta_histogram` (lines 330-334); store the result with
`set_reduced_diffraction_data` keyed by the sub-run and the mask id
(line 342).  Several of these calls name attributes their receivers do
not define (see the individual definitions above); in Python each such
call raises, so the flow never reaches the store. -/
def reduce_sub_run_diffraction (workspace : HidraWorkspace) (sub_run : ℕ)
    (mask_vec_id : Option String × Option (List ℚ)) :
    Except PyError HidraWorkspace := do
  let raw_count_vec ← workspace.get_raw_data sub_run
  let two_theta_log ← workspace.get_2theta sub_run
  let two_theta := -two_theta_log
  engine_set_experimental_data two_theta raw_count_vec
  engine_build_instrument_one_arg
  let (mask_id, mask_vec) := mask_vec_id
  match mask_vec with
  | some v => engine_set_mask v
  | none => pure ()
  let data_set ← engine_reduce_histogram_call
  workspace.set_reduced_diffraction_data sub_run mask_id data_set.1 data_set.2

noncomputable section

/-- A concrete 2 x 2 instrument setup used by the witnesses: unit pixel
sizes and arm length 10. -/
def setup2 : InstrumentSetup :=
  { detector_rows := 2
    detector_columns := 2
    pixel_size_x := 1
    pixel_size_y := 1
    arm_length := 10 }

/-- A concrete built instrument used by the witnesses: the raw 2 x 2 grid
stored as both the raw and the built pixel matrix. -/
def instW : ResidualStressInstrument :=
  { init_setup := setup2
    raw_pixel_matrix := set_uncalibrated_pixels setup2
    pixel_matrix := some (set_uncalibrated_pixels setup2) }

end

/-- A concrete workspace used by the C10 witness: the sub-run-to-spectrum
map holds a single sub-run. -/
def wsW : HidraWorkspace :=
  { sub_run_to_spectrum := some [(1, 0)]
    raw_counts := []
    sample_log_2theta := []
    two_theta_matrix := none
    diff_data_set := [] }

/-- Lemma: `build_instrument` never touches the raw pixel matrix: the Python
method copies it (reduce_hb2b_pyrs.py line 90) and all later updates hit
the copy. -/
theorem build_instrument_preserves_raw (inst : ResidualStressInstrument)
    (two_theta : ℝ) (cal : ResidualStressInstrumentCalibration) :
    (inst.build_instrument two_theta cal).raw_pixel_matrix =
      inst.raw_pixel_matrix := rfl

/-- C1: `build_instrument` produces exactly the pose
`Ry(t·π/180) · (R_calib · (raw + (sx, sy, 0)) + (0, 0, arm + sz))` with
`R_calib = Rx(rx·π/180) · Ry(ry·π/180) · Rz(rz·π/180)` multiplied in that
order and every rotation acting as `new[i] = Σ_j R[i,j] · old[j]`. -/
theorem c1_build_instrument_sequence (inst : ResidualStressInstrument)
    (two_theta : ℝ) (cal : ResidualStressInstrumentCalibration) :
    (inst.build_instrument two_theta cal).pixel_matrix = some (fun r c i =>
      ∑ j, cal_rotation_matrix_y (two_theta * Real.pi / 180) i j *
        ((∑ k, (cal_rotation_matrix_x (cal.rotation_x * Real.pi / 180) *
                cal_rotation_matrix_y (cal.rotation_y * Real.pi / 180) *
                cal_rotation_matrix_z (cal.rotation_z * Real.pi / 180)) j k *
            (inst.raw_pixel_matrix r c +
              ![cal.center_shift_x, cal.center_shift_y, 0]) k) +
          ![0, 0, inst.init_setup.arm_length + cal.center_shift_z] j)) := by
  simp only [ResidualStressInstrument.build_instrument, rotate_detector,
    generate_rotation_matrix]
  congr 1

/-- C2: the raw grid entry at `(r, c)` is
`((C·0.5−0.5)·px − c·px, −(R·0.5−0.5)·py + r·py, 0)`; X strictly
decreases as the column index increases and Y strictly increases with the
row index (for positive pixel sizes), and channel Z is 0 everywhere. -/
theorem c2_raw_grid (setup : InstrumentSetup) (r c r' c' : ℕ) :
    set_uncalibrated_pixels setup r c =
      ![((setup.detector_columns : ℝ) * 0.5 - 0.5) * setup.pixel_size_x -
          (c : ℝ) * setup.pixel_size_x,
        -((setup.detector_rows : ℝ) * 0.5 - 0.5) * setup.pixel_size_y +
          (r : ℝ) * setup.pixel_size_y,
        0] ∧
    (0 < setup.pixel_size_x → c < c' →
      set_uncalibrated_pixels setup r c' 0 < set_uncalibrated_pixels setup r c 0) ∧
    (0 < setup.pixel_size_y → r < r' →
      set_uncalibrated_pixels setup r c 1 < set_uncalibrated_pixels setup r' c 1) ∧
    set_uncalibrated_pixels setup r c 2 = 0 := by
  refine ⟨rfl, ?_, ?_, rfl⟩
  · intro hpx hcc
    have h : (c : ℝ) * setup.pixel_size_x < (c' : ℝ) * setup.pixel_size_x :=
      mul_lt_mul_of_pos_right (by exact_mod_cast hcc) hpx
    simp only [set_uncalibrated_pixels, Matrix.cons_val_zero]
    linarith
  · intro hpy hrr
    have h : (r : ℝ) * setup.pixel_size_y < (r' : ℝ) * setup.pixel_size_y :=
      mul_lt_mul_of_pos_right (by exact_mod_cast hrr) hpy
    simp only [set_uncalibrated_pixels, Matrix.cons_val_one, Matrix.head_cons]
    linarith

/-- Witness for C2 on the concrete 2 x 2 setup: with unit pixel sizes,
X at column 1 is below X at column 0 and Y at row 0 is below Y at row 1. -/
theorem c2_raw_grid_witness :
    (0 < setup2.pixel_size_x ∧ (0 : ℕ) < 1) ∧
    (0 < setup2.pixel_size_y ∧ (0 : ℕ) < 1) ∧
    set_uncalibrated_pixels setup2 0 1 0 < set_uncalibrated_pixels setup2 0 0 0 ∧
    set_uncalibrated_pixels setup2 0 0 1 < set_uncalibrated_pixels setup2 1 0 1 :=
  ⟨⟨by norm_num [setup2], by norm_num⟩, ⟨by norm_num [setup2], by norm_num⟩,
    (c2_raw_grid setup2 0 0 1 1).2.1 (by norm_num [setup2]) (by norm_num),
    (c2_raw_grid setup2 0 0 1 1).2.2.1 (by norm_num [setup2]) (by norm_num)⟩

/-- C4: once the instrument is built, `get_pixel_array` succeeds; the
linear index `row + rows·column` is a valid pixel ID below
`rows·columns` and addresses exactly the pose-grid entry at
`(row, column)` — the flatten order is column-major over the grid. -/
theorem c4_pixel_array_order (inst : ResidualStressInstrument)
    (m : ℕ → ℕ → Fin 3 → ℝ) (hm : inst.pixel_matrix = some m) (r c : ℕ)
    (hr : r < inst.init_setup.detector_rows)
    (hc : c < inst.init_setup.detector_columns) :
    ∃ pixel_pos_array, inst.get_pixel_array = .ok pixel_pos_array ∧
      r + inst.init_setup.detector_rows * c <
        inst.init_setup.detector_rows * inst.init_setup.detector_columns ∧
      pixel_pos_array (r + inst.init_setup.detector_rows * c) = m r c := by
  set R := inst.init_setup.detector_rows with hR
  refine ⟨fun k => m (k % R) (k / R), ?_, ?_, ?_⟩
  · simp [ResidualStressInstrument.get_pixel_array, hm]
  · calc r + R * c < R + R * c := by omega
      _ = R * (c + 1) := by ring
      _ ≤ R * inst.init_setup.detector_columns := Nat.mul_le_mul_left R hc
  · have hmod : (r + R * c) % R = r := by
      rw [Nat.add_mul_mod_self_left, Nat.mod_eq_of_lt hr]
    have hdiv : (r + R * c) / R = c := by
      rw [Nat.add_mul_div_left r c (Nat.pos_of_ne_zero (by omega)),
        Nat.div_eq_of_lt hr]
      omega
    simp only [hmod, hdiv]

/-- Witness for C4 on the concrete built 2 x 2 instrument at
`row = 1, column = 1`: pixel ID `1 + 2·1 = 3`. -/
theorem c4_pixel_array_order_witness :
    (instW.pixel_matrix = some (set_uncalibrated_pixels setup2) ∧
      1 < instW.init_setup.detector_rows ∧
      1 < instW.init_setup.detector_columns) ∧
    (∃ pixel_pos_array, instW.get_pixel_array = .ok pixel_pos_array ∧
      1 + instW.init_setup.detector_rows * 1 <
        instW.init_setup.detector_rows * instW.init_setup.detector_columns ∧
      pixel_pos_array (1 + instW.init_setup.detector_rows * 1) =
        set_uncalibrated_pixels setup2 1 1) :=
  ⟨⟨rfl, by norm_num [instW, setup2], by norm_num [instW, setup2]⟩,
    c4_pixel_array_order instW (set_uncalibrated_pixels setup2) rfl 1 1
      (by norm_num [instW, setup2]) (by norm_num [instW, setup2])⟩

/-- C9: after any sequence of `build_instrument` calls with any two-theta
and calibration values, the stored raw pixel matrix is identical to the
one built at construction time. -/
theorem c9_raw_grid_immutable (setup : InstrumentSetup)
    (calls : List (ℝ × ResidualStressInstrumentCalibration)) :
    (calls.foldl (fun inst tc => inst.build_instrument tc.1 tc.2)
        (ResidualStressInstrument.init setup)).raw_pixel_matrix =
      set_uncalibrated_pixels setup := by
  have key : ∀ inst : ResidualStressInstrument,
      (calls.foldl (fun inst tc => inst.build_instrument tc.1 tc.2)
        inst).raw_pixel_matrix = inst.raw_pixel_matrix := by
    induction calls with
    | nil => intro inst; rfl
    | cons tc rest ih =>
      intro inst
      simpa [List.foldl_cons] using ih (inst.build_instrument tc.1 tc.2)
  exact key (ResidualStressInstrument.init setup)

/-- C5: the 2theta conversion is entrywise on both accepted array shapes;
each entry with a nonzero-length position vector equals
`arccos(vz / sqrt(vx² + vy² + vz²)) · 180 / π`, and a zero-length
position vector yields the not-a-number outcome (`none`), not a raised
error. -/
theorem c5_convert_to_2theta (m : ℕ → ℕ → Fin 3 → ℝ) (a : ℕ → Fin 3 → ℝ)
    (r c k : ℕ) (v : Fin 3 → ℝ) :
    convert_to_2theta_matrix m r c = convert_to_2theta (m r c) ∧
    convert_to_2theta_flat a k = convert_to_2theta (a k) ∧
    (det_pos_norm v ≠ 0 →
      convert_to_2theta v = some (Real.arccos
        (v 2 / Real.sqrt (v 0 ^ 2 + v 1 ^ 2 + v 2 ^ 2)) * 180 / Real.pi)) ∧
    ((∀ i, v i = 0) → convert_to_2theta v = none) := by
  refine ⟨rfl, rfl, ?_, ?_⟩
  · intro h
    unfold convert_to_2theta
    rw [if_neg h]
    rfl
  · intro h
    have hz : det_pos_norm v = 0 := by simp [det_pos_norm, h 0, h 1, h 2]
    simp [convert_to_2theta, hz]

/-- Witness for C5: the on-axis vector `(0, 0, 1)` has nonzero norm and a
defined angle; the zero vector yields the not-a-number outcome. -/
theorem c5_convert_to_2theta_witness :
    (det_pos_norm ![0, 0, 1] ≠ 0 ∧ ∀ i, (![0, 0, 0] : Fin 3 → ℝ) i = 0) ∧
    convert_to_2theta ![0, 0, 1] = some (Real.arccos
      ((![0, 0, 1] : Fin 3 → ℝ) 2 / Real.sqrt ((![0, 0, 1] : Fin 3 → ℝ) 0 ^ 2 +
        (![0, 0, 1] : Fin 3 → ℝ) 1 ^ 2 + (![0, 0, 1] : Fin 3 → ℝ) 2 ^ 2)) *
      180 / Real.pi) ∧
    convert_to_2theta ![0, 0, 0] = none := by
  have h1 : det_pos_norm ![0, 0, 1] ≠ 0 := by
    simp [det_pos_norm]
  have h0 : ∀ i, (![0, 0, 0] : Fin 3 → ℝ) i = 0 := by
    intro i
    fin_cases i <;> simp
  exact ⟨⟨h1, h0⟩,
    (c5_convert_to_2theta (fun _ _ => ![0, 0, 1]) (fun _ => ![0, 0, 1]) 0 0 0
      ![0, 0, 1]).2.2.1 h1,
    (c5_convert_to_2theta (fun _ _ => ![0, 0, 0]) (fun _ => ![0, 0, 0]) 0 0 0
      ![0, 0, 0]).2.2.2 h0⟩

/-- C3 (code bug): the per-sub-run orchestration can never complete.  Its
very first step, `workspace.get_raw_data(sub_run)`
(reduction_manager.py line 277), names a method `HidraWorkspace` does not
define, so every invocation raises AttributeError before the two-theta
negation, the pose build, the histogram reduction or the result-store
write can happen (and the later engine calls `set_experimental_data`,
`build_instrument` with one argument, `set_mask` and
`reduce_to_2theta_histogram` with unknown keywords would each fail too). -/
theorem c3_reduce_sub_run_crashes (workspace : HidraWorkspace)
    (sub_run : ℕ) (mask_vec_id : Option String × Option (List ℚ)) :
    reduce_sub_run_diffraction workspace sub_run mask_vec_id =
      .error .attributeError := rfl

/-- C10: the result store rejects every write in which the two-theta
(bin) array and the intensity array differ in shape; in particular a
histogram in edge form (`num_bins + 1` edges with `num_bins`
intensities) can never be written. -/
theorem c10_store_shape_guard (w : HidraWorkspace) (sub_run : ℕ)
    (mask_id : Option String) (two_theta_array intensity_array : List ℚ) :
    (two_theta_array.length ≠ intensity_array.length →
      ∃ e, w.set_reduced_diffraction_data sub_run mask_id two_theta_array
        intensity_array = .error e) ∧
    (∀ num_bins : ℕ, two_theta_array.length = num_bins + 1 →
      intensity_array.length = num_bins →
      ∃ e, w.set_reduced_diffraction_data sub_run mask_id two_theta_array
        intensity_array = .error e) := by
  have main : two_theta_array.length ≠ intensity_array.length →
      ∃ e, w.set_reduced_diffraction_data sub_run mask_id two_theta_array
        intensity_array = .error e := by
    intro hne
    cases hs : w.sub_run_to_spectrum with
    | none =>
      exact ⟨.runtimeError,
        by simp [HidraWorkspace.set_reduced_diffraction_data, hs]⟩
    | some s2s =>
      by_cases h1 : sub_run < 1
      · exact ⟨.valueError,
          by simp [HidraWorkspace.set_reduced_diffraction_data, hs, h1]⟩
      · exact ⟨.runtimeError,
          by simp [HidraWorkspace.set_reduced_diffraction_data, hs, h1, hne]⟩
  exact ⟨main, fun num_bins h1 h2 => main (by omega)⟩

/-- Witness for C10: a 2-edge / 1-intensity (edge-form) histogram is
rejected by the result store. -/
theorem c10_store_shape_guard_witness :
    (([0, 1] : List ℚ).length ≠ ([5] : List ℚ).length ∧
      ([0, 1] : List ℚ).length = 1 + 1 ∧ ([5] : List ℚ).length = 1) ∧
    (∃ e, wsW.set_reduced_diffraction_data 1 none [0, 1] [5] = .error e) ∧
    (∃ e, wsW.set_reduced_diffraction_data 1 none [0, 1] [5] = .error e) :=
  ⟨⟨by decide, by decide, by decide⟩,
    (c10_store_shape_guard wsW 1 none [0, 1] [5]).1 (by decide),
    (c10_store_shape_guard wsW 1 none [0, 1] [5]).2 1 (by decide) (by decide)⟩

/-- An assigned bin index is always below the number of bins. -/
theorem numpy_bin_index_lt (lo hi x : ℚ) (n : ℕ) (hn : 0 < n) (b : ℕ)
    (h : numpy_bin_index lo hi n x = some b) : b < n := by
  unfold numpy_bin_index at h
  by_cases hin : lo ≤ x ∧ x ≤ hi
  · rw [if_pos hin] at h
    have hb := Option.some.inj h
    omega
  · rw [if_neg hin] at h
    exact absurd h (by simp)

/-- Every in-range sample is assigned some bin. -/
theorem numpy_bin_index_of_mem (lo hi x : ℚ) (n : ℕ)
    (h : lo ≤ x ∧ x ≤ hi) : ∃ b, numpy_bin_index lo hi n x = some b := by
  refine ⟨min (Int.toNat ⌊(x - lo) / (hi - lo) * n⌋) (n - 1), ?_⟩
  unfold numpy_bin_index
  rw [if_pos h]

/-- Summing one sample's contributions over all bins collects its weight
exactly when the sample is in range. -/
theorem sum_if_bin (lo hi x c : ℚ) (n : ℕ) (hn : 0 < n) :
    (∑ b ∈ Finset.range n,
        if numpy_bin_index lo hi n x = some b then c else 0) =
      if lo ≤ x ∧ x ≤ hi then c else 0 := by
  by_cases hin : lo ≤ x ∧ x ≤ hi
  · obtain ⟨j, hj⟩ := numpy_bin_index_of_mem lo hi x n hin
    have hjn : j < n := numpy_bin_index_lt lo hi x n hn j hj
    rw [if_pos hin]
    simp only [hj, Option.some.injEq]
    rw [Finset.sum_ite_eq]
    simp [hjn]
  · have hnone : numpy_bin_index lo hi n x = none := by
      unfold numpy_bin_index
      rw [if_neg hin]
    simp [hnone, hin]

/-- Sum of a function mapped over `List.range` as a `Finset.range` sum. -/
theorem list_range_map_sum (f : ℕ → ℚ) (n : ℕ) :
    ((List.range n).map f).sum = ∑ b ∈ Finset.range n, f b := by
  induction n with
  | zero => simp
  | succ n ih =>
    rw [List.range_succ, List.map_append, List.sum_append,
      Finset.sum_range_succ, ih]
    simp

/-- The total weight over all bins equals the total weight of the
in-range samples. -/
theorem hist_count_total (lo hi : ℚ) (n : ℕ) (hn : 0 < n)
    (pw : List (ℚ × ℚ)) :
    (∑ b ∈ Finset.range n, hist_count lo hi n pw b) =
      (pw.map (fun p => if lo ≤ p.1 ∧ p.1 ≤ hi then p.2 else 0)).sum := by
  induction pw with
  | nil => simp [hist_count]
  | cons p ps ih =>
    have expand : ∀ b, hist_count lo hi n (p :: ps) b =
        (if numpy_bin_index lo hi n p.1 = some b then p.2 else 0) +
          hist_count lo hi n ps b := by
      intro b
      simp [hist_count]
    calc (∑ b ∈ Finset.range n, hist_count lo hi n (p :: ps) b)
        = ∑ b ∈ Finset.range n,
            ((if numpy_bin_index lo hi n p.1 = some b then p.2 else 0) +
              hist_count lo hi n ps b) :=
          Finset.sum_congr rfl (fun b _ => expand b)
      _ = (∑ b ∈ Finset.range n,
            if numpy_bin_index lo hi n p.1 = some b then p.2 else 0) +
          ∑ b ∈ Finset.range n, hist_count lo hi n ps b :=
          Finset.sum_add_distrib
      _ = (if lo ≤ p.1 ∧ p.1 ≤ hi then p.2 else 0) +
          (ps.map (fun q => if lo ≤ q.1 ∧ q.1 ≤ hi then q.2 else 0)).sum := by
          rw [sum_if_bin lo hi p.1 p.2 n hn, ih]
      _ = ((p :: ps).map
            (fun q => if lo ≤ q.1 ∧ q.1 ≤ hi then q.2 else 0)).sum := by
          simp

/-- Sum identity for the embedded `numpy.histogram`. -/
theorem numpy_histogram_sum (a w : List ℚ) (n : ℕ) (hn : 0 < n)
    (lo hi : ℚ) :
    (numpy_histogram a w n lo hi).sum =
      ((a.zip w).map (fun p => if lo ≤ p.1 ∧ p.1 ≤ hi then p.2 else 0)).sum := by
  unfold numpy_histogram
  rw [list_range_map_sum]
  exact hist_count_total lo hi n hn (a.zip w)

/-- On shape-matching inputs with a valid explicit range, no mask and a
positive bin count, the reducer succeeds with the numpy edges and
histogram. -/
theorem reduce_ok_of_valid (a w : List ℚ) (n : ℕ) (lo hi : ℚ)
    (hlen : a.length = w.length) (hn : 0 < n) (hr : lo < hi) :
    reduce_to_2theta_histogram a w none n (some (lo, hi)) false =
      .ok (bin_edges lo hi n, numpy_histogram a w n lo hi) := by
  unfold reduce_to_2theta_histogram
  have h1 : ¬ a.length ≠ w.length := by simp [hlen]
  have h2 : ¬ ((some (lo, hi)).elim false
      (fun p => decide (p.1 ≥ p.2)) = true) := by
    simp [not_le.mpr hr]
  rw [if_neg h1, if_neg h2]
  simp [apply_mask, resolve_range, Nat.pos_iff_ne_zero.mp hn]

/-- C6: with no mask and a valid range, the histogram reducer succeeds
and the sum of the output intensities equals the sum of the counts of
exactly the pixels whose angle lies inside the range; when the range
covers every angle, that sum is the full counts sum. -/
theorem c6_histogram_sum_conservation (a w : List ℚ) (n : ℕ) (lo hi : ℚ)
    (hlen : a.length = w.length) (hn : 0 < n) (hr : lo < hi) :
    ∃ hist, reduce_to_2theta_histogram a w none n (some (lo, hi)) false =
        .ok (bin_edges lo hi n, hist) ∧
      hist.sum =
        ((a.zip w).map (fun p => if lo ≤ p.1 ∧ p.1 ≤ hi then p.2 else 0)).sum ∧
      ((∀ x ∈ a, lo ≤ x ∧ x ≤ hi) → hist.sum = w.sum) := by
  refine ⟨numpy_histogram a w n lo hi,
    reduce_ok_of_valid a w n lo hi hlen hn hr,
    numpy_histogram_sum a w n hn lo hi, ?_⟩
  intro hall
  rw [numpy_histogram_sum a w n hn lo hi]
  have hmap : (a.zip w).map (fun p => if lo ≤ p.1 ∧ p.1 ≤ hi then p.2 else 0) =
      (a.zip w).map Prod.snd := by
    apply List.map_congr_left
    intro p hp
    obtain ⟨x, y⟩ := p
    have hx : x ∈ a := (List.of_mem_zip hp).1
    simp [hall x hx]
  rw [hmap, List.map_snd_zip a w (le_of_eq hlen.symm)]

/-- Witness for C6 on the concrete 4-bin scenario of the specification:
angles `[10, 20, 30, 40]`, counts `[1, 2, 3, 4]`, range `(10, 40)`. -/
theorem c6_histogram_sum_conservation_witness :
    (([10, 20, 30, 40] : List ℚ).length = ([1, 2, 3, 4] : List ℚ).length ∧
      (0 : ℕ) < 4 ∧ (10 : ℚ) < 40) ∧
    (∃ hist, reduce_to_2theta_histogram [10, 20, 30, 40] [1, 2, 3, 4] none 4
        (some (10, 40)) false = .ok (bin_edges 10 40 4, hist) ∧
      hist.sum = (([10, 20, 30, 40] : List ℚ).zip [1, 2, 3, 4] |>.map
        (fun p => if 10 ≤ p.1 ∧ p.1 ≤ 40 then p.2 else 0)).sum ∧
      ((∀ x ∈ ([10, 20, 30, 40] : List ℚ), 10 ≤ x ∧ x ≤ 40) →
        hist.sum = ([1, 2, 3, 4] : List ℚ).sum)) :=
  ⟨⟨by decide, by decide, by decide⟩,
    c6_histogram_sum_conservation [10, 20, 30, 40] [1, 2, 3, 4] 4 10 40
      (by decide) (by decide) (by decide)⟩

/-- The number of bin edges is the number of bins plus one. -/
theorem bin_edges_length (lo hi : ℚ) (n : ℕ) :
    (bin_edges lo hi n).length = n + 1 := by
  unfold bin_edges
  rw [List.length_map, List.length_range]

/-- Each bin edge is `lo + (hi - lo)·i/n`. -/
theorem bin_edges_getD (lo hi : ℚ) (n i : ℕ) (h : i < n + 1) :
    (bin_edges lo hi n).getD i 0 = lo + (hi - lo) * (i : ℚ) / (n : ℚ) := by
  have hlen : i < (bin_edges lo hi n).length := by
    rw [bin_edges_length]
    exact h
  rw [List.getD_eq_getElem _ _ hlen]
  unfold bin_edges
  simp only [List.getElem_map, List.getElem_range]

/-- Point-data conversion shifts every surviving edge by the half-width
of the first bin. -/
theorem point_data_convert_getD (edges : List ℚ) (i : ℕ)
    (h : i + 1 < edges.length) :
    (point_data_convert edges).getD i 0 =
      edges.getD i 0 + (edges.getD 1 0 - edges.getD 0 0) / 2 := by
  unfold point_data_convert
  have h2 : i < ((edges.map (fun e =>
      e + (edges.getD 1 0 - edges.getD 0 0) * (0.5 : ℚ))).dropLast).length := by
    simp
    omega
  have h3 : i < edges.length := by omega
  rw [List.getD_eq_getElem _ _ h2, List.getD_eq_getElem edges 0 h3]
  simp [List.getElem_dropLast, List.getElem_map]
  ring

/-- The histogram has one intensity per bin. -/
theorem numpy_histogram_length (a w : List ℚ) (n : ℕ) (lo hi : ℚ) :
    (numpy_histogram a w n lo hi).length = n := by
  simp [numpy_histogram]

/-- Inversion of a successful point-data reduction: the bin count was
positive, the mask applied cleanly, the intensities are the numpy
histogram over the resolved range, and the first output is the
point-data conversion of the numpy bin edges. -/
theorem reduce_point_data_inv (a w : List ℚ) (mask : Option (List ℚ))
    (n : ℕ) (xr : Option (ℚ × ℚ)) (centers hist : List ℚ)
    (h : reduce_to_2theta_histogram a w mask n xr true = .ok (centers, hist)) :
    n ≠ 0 ∧
      centers = point_data_convert
        (bin_edges (resolve_range xr a).1 (resolve_range xr a).2 n) ∧
      ∃ vec_counts, apply_mask w mask = .ok vec_counts ∧
        hist = numpy_histogram a vec_counts n (resolve_range xr a).1
          (resolve_range xr a).2 := by
  unfold reduce_to_2theta_histogram at h
  split at h
  · exact absurd h (by simp)
  split at h
  · exact absurd h (by simp)
  split at h
  · exact absurd h (by simp)
  next vec_counts heq =>
    split at h
    · exact absurd h (by simp)
    next h3 =>
      rw [if_pos rfl] at h
      simp only [Except.ok.injEq, Prod.mk.injEq] at h
      exact ⟨h3, h.1.symm, vec_counts, heq, h.2.symm⟩

/-- C7: a successful point-data reduction returns a center array of
exactly the intensity array's length, with
`center[i] = edge[i] + (edge[1] - edge[0])/2` for every bin index. -/
theorem c7_point_data_centers (a w : List ℚ) (mask : Option (List ℚ))
    (n : ℕ) (xr : Option (ℚ × ℚ)) (centers hist : List ℚ)
    (h : reduce_to_2theta_histogram a w mask n xr true = .ok (centers, hist)) :
    centers.length = hist.length ∧
    ∀ i, i < n →
      centers.getD i 0 =
        (bin_edges (resolve_range xr a).1 (resolve_range xr a).2 n).getD i 0 +
          ((bin_edges (resolve_range xr a).1 (resolve_range xr a).2 n).getD 1 0 -
            (bin_edges (resolve_range xr a).1 (resolve_range xr a).2 n).getD 0 0) / 2 := by
  obtain ⟨hn, hc, vec_counts, hvc, hh⟩ :=
    reduce_point_data_inv a w mask n xr centers hist h
  have hedges : (bin_edges (resolve_range xr a).1 (resolve_range xr a).2 n).length
      = n + 1 := bin_edges_length _ _ _
  constructor
  · rw [hc, hh, numpy_histogram_length]
    simp [point_data_convert, hedges]
  · intro i hi_lt
    rw [hc]
    exact point_data_convert_getD _ i (by rw [hedges]; omega)

/-- Witness for C7: reducing angles `[1, 2]` with counts `[5, 7]` into two
bins over `(0, 4)` in point-data form yields centers `[1, 3]` aligned
with intensities `[5, 7]`. -/
theorem c7_point_data_centers_witness :
    (reduce_to_2theta_histogram [1, 2] [5, 7] none 2 (some (0, 4)) true =
      .ok ([1, 3], [5, 7])) ∧
    (([1, 3] : List ℚ).length = ([5, 7] : List ℚ).length ∧
      ∀ i, i < 2 →
        ([1, 3] : List ℚ).getD i 0 =
          (bin_edges (resolve_range (some (0, 4)) [1, 2]).1
            (resolve_range (some (0, 4)) [1, 2]).2 2).getD i 0 +
            ((bin_edges (resolve_range (some (0, 4)) [1, 2]).1
              (resolve_range (some (0, 4)) [1, 2]).2 2).getD 1 0 -
              (bin_edges (resolve_range (some (0, 4)) [1, 2]).1
                (resolve_range (some (0, 4)) [1, 2]).2 2).getD 0 0) / 2) :=
  ⟨by
    norm_num [reduce_to_2theta_histogram, apply_mask, resolve_range, bin_edges,
      point_data_convert, numpy_histogram, hist_count, numpy_bin_index,
      List.range_succ],
    c7_point_data_centers [1, 2] [5, 7] none 2 (some (0, 4)) [1, 3] [5, 7]
      (by
        norm_num [reduce_to_2theta_histogram, apply_mask, resolve_range,
          bin_edges, point_data_convert, numpy_histogram, hist_count,
          numpy_bin_index, List.range_succ])⟩

/-- C8: the reducer fails with the shape-mismatch error whenever the
angle and counts arrays differ in shape; with matching shapes it fails
with the range error whenever an explicit range `(lo, hi)` with
`lo ≥ hi` is supplied; and with no explicit range it histograms over
`[min(angles), max(angles)]`. -/
theorem c8_errors_and_default_range (a w : List ℚ) (mask : Option (List ℚ))
    (n : ℕ) :
    (∀ xr pd, a.length ≠ w.length →
      reduce_to_2theta_histogram a w mask n xr pd = .error .shapeMismatch) ∧
    (∀ lo hi pd, a.length = w.length → lo ≥ hi →
      reduce_to_2theta_histogram a w mask n (some (lo, hi)) pd =
        .error .rangeError) ∧
    (a ≠ [] → a.length = w.length → 0 < n →
      reduce_to_2theta_histogram a w none n none false =
        .ok (bin_edges (list_min a) (list_max a) n,
          numpy_histogram a w n (list_min a) (list_max a))) := by
  refine ⟨?_, ?_, ?_⟩
  · intro xr pd hne
    unfold reduce_to_2theta_histogram
    rw [if_pos hne]
  · intro lo hi pd hlen hge
    unfold reduce_to_2theta_histogram
    rw [if_neg (by simp [hlen]), if_pos (by simpa using hge)]
  · intro hne hlen hn
    unfold reduce_to_2theta_histogram
    rw [if_neg (by simp [hlen]), if_neg (by simp)]
    simp [apply_mask, resolve_range, hne, Nat.pos_iff_ne_zero.mp hn]

/-- Witness for C8: mismatched shapes give the shape error; an inverted
explicit range gives the range error; omitting the range histograms
angles `[1, 2]` over their own min and max. -/
theorem c8_errors_and_default_range_witness :
    (([1] : List ℚ).length ≠ ([1, 2] : List ℚ).length ∧
      ([1, 2] : List ℚ).length = ([3, 4] : List ℚ).length ∧
      (3 : ℚ) ≥ 3 ∧ ([1, 2] : List ℚ) ≠ [] ∧ (0 : ℕ) < 1) ∧
    reduce_to_2theta_histogram [1] [1, 2] none 1 none false =
      .error .shapeMismatch ∧
    reduce_to_2theta_histogram [1, 2] [3, 4] none 1 (some (3, 3)) false =
      .error .rangeError ∧
    reduce_to_2theta_histogram [1, 2] [3, 4] none 1 none false =
      .ok (bin_edges (list_min [1, 2]) (list_max [1, 2]) 1,
        numpy_histogram [1, 2] [3, 4] 1 (list_min [1, 2]) (list_max [1, 2])) :=
  ⟨⟨by decide, by decide, by decide, by decide, by decide⟩,
    (c8_errors_and_default_range [1] [1, 2] none 1).1 none false (by decide),
    (c8_errors_and_default_range [1, 2] [3, 4] none 1).2.1 3 3 false
      (by decide) (by decide),
    (c8_errors_and_default_range [1, 2] [3, 4] none 1).2.2 (by decide)
      (by decide) (by decide)⟩
